import Mathlib

/-!
Verification of the caching transport, body tee, and backend director of
the bazel-remote-tiered-cache reverse proxy.

The Go source is shallowly embedded:
- HTTP responses become the `Response` structure; the serialisation
  performed by `httputil.DumpResponse` and the parse performed by
  `http.ReadResponse` become `dumpResponse` / `parseResponse` over
  `List Char`.
- The cache store (`httpcache.Cache`: Get/Set/Delete) becomes an
  association list with `storeGet` / `storeSet` / `storeDelete`.
- `cachingTransport.RoundTrip` becomes the pure function `roundTrip`;
  external effects (the current time, Go stdlib `http.ParseTime`, and the
  inner transport's answer) are passed in as explicit arguments.  Process
  aborts (`log.Fatalf`) are the `RTOutcome.fatal` outcome and the
  out-of-range header index is `RTOutcome.panic`.
- `cachingReadCloser.Read` becomes the event-trace function `teeFires`.
- `s3Director.Direct` becomes `s3Direct` with the AWS presign call as an
  explicit argument; `effectiveKey` is translated directly.
- The transport wiring performed by `main` becomes `mainWiring`.
-/

/-- Time in nanoseconds of one minute, matching Go `time.Minute`. -/
def minuteNs : Int := 60000000000

/-- A parsed HTTP response: status code, reason phrase, headers in order,
and the body bytes, as produced by `http.ReadResponse`. -/
structure Response where
  statusCode : Nat
  reason : List Char
  headers : List (List Char × List Char)
  body : List Char
deriving DecidableEq

/-- Header lookup, modelling `resp.Header[name]`: all values stored under
the given header name, in order. -/
def headerValues (r : Response) (name : List Char) : List (List Char) :=
  (r.headers.filter (fun kv => kv.1 == name)).map (fun kv => kv.2)

/-- The characters of the header name Date. -/
def dateChars : List Char := ['D', 'a', 't', 'e']

/-- The characters of the fixed status-line lead HTTP/1.1 followed by one
space, as written by the Go response serialiser. -/
def httpVersionChars : List Char :=
  ['H', 'T', 'T', 'P', '/', '1', '.', '1', ' ']

/-- The carriage-return line-feed line terminator of the wire format. -/
def crlf : List Char := ['\r', '\n']

/-- Decimal rendering helper: digits of n, most significant first, using
structural fuel so that the kernel can evaluate it. -/
def natToCharsAux : Nat → Nat → List Char
  | 0, _ => []
  | _ + 1, 0 => []
  | fuel + 1, n + 1 =>
      natToCharsAux fuel ((n + 1) / 10) ++ [Char.ofNat (48 + (n + 1) % 10)]

/-- Decimal rendering of a status code, as `strconv` renders integers. -/
def natToChars (n : Nat) : List Char :=
  if n = 0 then ['0'] else natToCharsAux (n + 1) n

/-- Value of a digit string, most significant digit first. -/
def digitsVal (cs : List Char) : Nat :=
  cs.foldl (fun a c => a * 10 + (c.toNat - 48)) 0

/-- Parse of a decimal number: requires a nonempty all-digit string. -/
def parseNat (cs : List Char) : Option Nat :=
  if cs ≠ [] ∧ cs.all (fun c => c.isDigit) then some (digitsVal cs) else none

/-- Split the input at the first CRLF: returns the line before it and the
remainder after it, or none when no CRLF terminates the line. -/
def splitLine : List Char → Option (List Char × List Char)
  | [] => none
  | c :: rest =>
    if c = '\r' then
      match rest with
      | '\n' :: rest2 => some ([], rest2)
      | _ => none
    else
      match splitLine rest with
      | none => none
      | some lr => some (c :: lr.1, lr.2)

/-- Strip a fixed lead sequence from the input, or fail. -/
def stripLead : List Char → List Char → Option (List Char)
  | [], l => some l
  | _ :: _, [] => none
  | p :: ps, c :: cs => if p = c then stripLead ps cs else none

/-- Parse of the status line after the HTTP/1.1 lead: the decimal status
code up to the first space, then the reason phrase. -/
def parseStatusLine (line : List Char) : Option (Nat × List Char) :=
  match stripLead httpVersionChars line with
  | none => none
  | some rest =>
    match rest.dropWhile (fun c => !(c == ' ')) with
    | [] => none
    | _ :: reason =>
      match parseNat (rest.takeWhile (fun c => !(c == ' '))) with
      | none => none
      | some n => some (n, reason)

/-- Parse of one header line into key and value: split at the first
colon, then drop the leading spaces and tabs of the value, as the Go
textproto reader does. -/
def parseHeaderLine (line : List Char) : Option (List Char × List Char) :=
  match line.dropWhile (fun c => !(c == ':')) with
  | [] => none
  | _ :: v =>
      some (line.takeWhile (fun c => !(c == ':')),
            v.dropWhile (fun c => c == ' ' || c == '\t'))

/-- Parse of the header block: header lines up to the empty line, then the
remainder is the body.  Fuel keeps the recursion structural. -/
def parseHeadersAux :
    Nat → List Char → Option (List (List Char × List Char) × List Char)
  | 0, _ => none
  | fuel + 1, cs =>
    match splitLine cs with
    | none => none
    | some lr =>
      if lr.1 = [] then some ([], lr.2)
      else
        match parseHeaderLine lr.1 with
        | none => none
        | some kv =>
          match parseHeadersAux fuel lr.2 with
          | none => none
          | some hb => some (kv :: hb.1, hb.2)

/-- Deserialisation of a stored cache entry, modelling `http.ReadResponse`
over the raw bytes: status line, header block, then the body. -/
def parseResponse (cs : List Char) : Option Response :=
  match splitLine cs with
  | none => none
  | some lr =>
    match parseStatusLine lr.1 with
    | none => none
    | some cr =>
      match parseHeadersAux (lr.2.length + 1) lr.2 with
      | none => none
      | some hb => some ⟨cr.1, cr.2, hb.1, hb.2⟩

/-- Serialisation of the header block, one key colon space value CRLF line
per header, in order. -/
def dumpHeaders : List (List Char × List Char) → List Char
  | [] => []
  | kv :: hs => kv.1 ++ ':' :: ' ' :: (kv.2 ++ crlf ++ dumpHeaders hs)

/-- Serialisation of a response, modelling `httputil.DumpResponse` with
the body included: status line, headers, empty line, body. -/
def dumpResponse (r : Response) : List Char :=
  httpVersionChars ++
    natToChars r.statusCode ++
      ' ' :: (r.reason ++ crlf ++ (dumpHeaders r.headers ++ crlf ++ r.body))

/-- The cache store, modelling the httpcache Get Set Delete interface as
an association list from key to raw entry bytes. -/
abbrev Store := List (String × List Char)

/-- Store lookup: the first entry under the key, when present. -/
def storeGet (s : Store) (k : String) : Option (List Char) :=
  (s.find? (fun e => e.1 == k)).map (fun e => e.2)

/-- Store deletion: removes every entry under the key. -/
def storeDelete (s : Store) (k : String) : Store :=
  s.filter (fun e => !(e.1 == k))

/-- Store write: replaces any entry under the key with the new bytes. -/
def storeSet (s : Store) (k : String) (v : List Char) : Store :=
  (k, v) :: storeDelete s k

/-- Result of `cachedResponse`: an error when the stored bytes do not
parse, otherwise the entry when present.  In Go the pair `(resp, err)`
has `resp = nil` exactly when `err` is set or the key is absent. -/
def cachedResponse (s : Store) (cacheKey : String) :
    Except Unit (Option Response) :=
  match storeGet s cacheKey with
  | none => Except.ok none
  | some bytes =>
    match parseResponse bytes with
    | none => Except.error ()
    | some r => Except.ok (some r)

/-- The raw bytes of the synthesized method-not-allowed response written
by `newDroppedResponse`. -/
def droppedRaw : List Char :=
  ['H', 'T', 'T', 'P', '/', '1', '.', '1', ' ', '4', '0', '5', ' ',
   'M', 'e', 't', 'h', 'o', 'd', ' ', 'N', 'o', 't', ' ',
   'A', 'l', 'l', 'o', 'w', 'e', 'd', '\r', '\n', '\r', '\n']

/-- The synthesized DROP response, built exactly as the Go code does by
parsing the literal 405 byte string back through the response reader. -/
def newDroppedResponse : Response :=
  (parseResponse droppedRaw).getD ⟨0, [], [], []⟩

/-- The visible fields of a completed round trip: the final audit action,
the returned response, whether an error is returned, the cache contents
at return, and whether the inner transport was called. -/
structure RTDone where
  action : String
  resp : Option Response
  isErr : Bool
  cache : Option Store
  backendCalled : Bool
deriving DecidableEq

/-- Outcome of one round trip: a normal return, a process abort raised by
`log.Fatalf`, or a runtime panic from an out-of-range index. -/
inductive RTOutcome
  | done (d : RTDone)
  | fatal
  | panic
deriving DecidableEq

/-- Whether the outcome called the inner transport. -/
def RTOutcome.backendCalled : RTOutcome → Bool
  | .done d => d.backendCalled
  | .fatal => false
  | .panic => false

/-- The fetch tail of the round trip: `t.Transport.RoundTrip(req)` with
the deferred log turning the action into ERROR when the fetch errs. -/
def fetchStep (action : String) (backend : Option Response)
    (cache : Option Store) : RTOutcome :=
  match backend with
  | none => .done ⟨"ERROR", none, true, cache, true⟩
  | some r => .done ⟨action, some r, false, cache, true⟩

/-- The caching transport decision logic, translated line by line from
`cachingTransport.RoundTrip`.  `parseTime` stands for the Go stdlib
`http.ParseTime`, `now` for `time.Now().UTC()` in nanoseconds, and
`backend` for what the inner transport would return (`none` is an
error).  The cache key is the request path. -/
def roundTrip (allowWrites : Bool) (refreshDelay now : Int)
    (parseTime : List Char → Option Int) (backend : Option Response)
    (cache : Option Store) (method path : String) : RTOutcome :=
  let cacheKey := path
  match cache, method == "GET" with
  | some s, true =>
    match cachedResponse s cacheKey with
    | .error _ => fetchStep "" backend (some s)
    | .ok none => fetchStep "CACHE_MISS" backend (some s)
    | .ok (some r) =>
      match (headerValues r dateChars).head? with
      | none => .panic
      | some d =>
        match parseTime d with
        | none => .fatal
        | some cachedAt =>
          if r.statusCode = 200 ∨ ¬ cachedAt + refreshDelay * minuteNs < now
          then .done ⟨"CACHE_HIT", some r, false, some s, false⟩
          else fetchStep "CACHE_REFRESH" backend
                 (some (storeDelete s cacheKey))
  | _, _ =>
    if (method == "PUT" && allowWrites) || method == "GET" then
      fetchStep "PASSTHROUGH" backend cache
    else
      .done ⟨"DROP", some newDroppedResponse, false, cache, false⟩

/-- Terminal signal of one underlying read: end-of-data or another
error. -/
inductive Terminal
  | eof
  | err
deriving DecidableEq

/-- One read of the wrapped body: the bytes the underlying reader
returned together with the error value of that read (`none` is a nil
error). -/
structure ReadEvent where
  bytes : List Char
  signal : Option Terminal
deriving DecidableEq

/-- The commit callback firings of `cachingReadCloser.Read` over a trace
of reads: each read first appends its bytes to the internal buffer, then
fires the callback with the whole buffer when the read returned EOF. -/
def teeFires (buf : List Char) : List ReadEvent → List (List Char)
  | [] => []
  | e :: es =>
    (if e.signal = some Terminal.eof then [buf ++ e.bytes] else []) ++
      teeFires (buf ++ e.bytes) es

/-- Count of reads in the trace that returned EOF. -/
def eofCount : List ReadEvent → Nat
  | [] => 0
  | e :: es =>
    (if e.signal = some Terminal.eof then 1 else 0) + eofCount es

/-- Soundness of a read trace against the underlying body bytes: whenever
a read returns EOF, everything delivered so far is exactly the body
(an underlying reader signals true end-of-data only once all its bytes
have been handed out).  `buf` is what was delivered before the trace. -/
def drainsTo (buf data : List Char) : List ReadEvent → Bool
  | [] => true
  | e :: es =>
    (e.signal != some Terminal.eof || buf ++ e.bytes == data) &&
      drainsTo (buf ++ e.bytes) data es

/-- Effect on the store of the commit callback installed by `RoundTrip`:
each firing dumps the response with the accumulated body and writes it
under the cache key. -/
def commitFires (c : Store) (cacheKey : String) (r : Response)
    (fires : List (List Char)) : Store :=
  fires.foldl
    (fun s bs => storeSet s cacheKey (dumpResponse { r with body := bs })) c

/-- Trim of every leading and trailing occurrence of a character,
modelling Go `strings.Trim` with a one-character cut set. -/
def trimChar (c : Char) (s : List Char) : List Char :=
  ((s.dropWhile (fun x => x == c)).reverse.dropWhile (fun x => x == c)).reverse

/-- The S3 object key for a request path, translated from
`effectiveKey`. -/
def effectiveKey (pfx userPath : String) : String :=
  let p := (trimChar '/' userPath.toList).asString
  if pfx = "" then p
  else if p = "" then pfx
  else pfx ++ "/" ++ p

/-- Outcome of the director: a process abort raised by `log.Fatal`, a
request failed without touching the process (never produced by this
code), or the request rewritten to the presigned URL with the host
override cleared. -/
inductive DirectOutcome
  | fatal
  | requestFailed
  | redirected (purl : String) (host : String)
deriving DecidableEq

/-- The object-store director, translated from `s3Director.Direct`.  The
AWS SDK presign of the built request is the explicit `presign` argument,
from bucket, method and key to the presigned URL or a failure. -/
def s3Direct (bucket pfx : String)
    (presign : String → String → String → Option String)
    (method path : String) : DirectOutcome :=
  let key := effectiveKey pfx path
  if method = "GET" ∨ method = "PUT" then
    match presign bucket method key with
    | none => DirectOutcome.fatal
    | some purl => DirectOutcome.redirected purl ""
  else DirectOutcome.fatal

/-- A transport value in the wiring of `main`: the stdlib default
transport or the rehttp retrying wrapper with its retry bound. -/
inductive TransportKind
  | defaultTransport
  | retrying (maxRetries : Int) (inner : TransportKind)
deriving DecidableEq

/-- The two transport values fixed by `main`: the local `baseTransport`
variable and the transport installed into the caching transport. -/
structure MainWiring where
  baseTransport : TransportKind
  cachingTransportInner : TransportKind
deriving DecidableEq

/-- The transport wiring of `main`, translated statement by statement:
`baseTransport` is wrapped in the retrying transport when the max-retries
flag exceeds one, and the caching transport is then built over
`http.DefaultTransport`. -/
def mainWiring (maxRetries : Int) : MainWiring :=
  let baseTransport :=
    if maxRetries > 1 then
      TransportKind.retrying maxRetries TransportKind.defaultTransport
    else TransportKind.defaultTransport
  { baseTransport := baseTransport,
    cachingTransportInner := TransportKind.defaultTransport }

/-- Well-formedness of a response for the serialisation round trip: no
carriage return inside the reason phrase, and each header key free of
colons and carriage returns, each value free of carriage returns and not
beginning with blank padding. -/
def WfResponse (r : Response) : Prop :=
  '\r' ∉ r.reason ∧
    ∀ kv ∈ r.headers, ':' ∉ kv.1 ∧ '\r' ∉ kv.1 ∧ '\r' ∉ kv.2 ∧
      kv.2.head? ≠ some ' ' ∧ kv.2.head? ≠ some '\t'

instance (r : Response) : Decidable (WfResponse r) := by
  unfold WfResponse; infer_instance

/-! ### Decimal rendering round trip -/

theorem digit_toNat (d : Nat) (h : d < 10) :
    (Char.ofNat (48 + d)).toNat = 48 + d := by
  interval_cases d <;> decide

theorem digit_isDigit (d : Nat) (h : d < 10) :
    (Char.ofNat (48 + d)).isDigit = true := by
  interval_cases d <;> decide

theorem natToCharsAux_isDigit (fuel n : Nat) :
    ∀ c ∈ natToCharsAux fuel n, c.isDigit = true := by
  induction fuel generalizing n with
  | zero => simp [natToCharsAux]
  | succ f ih =>
    cases n with
    | zero => simp [natToCharsAux]
    | succ m =>
      intro c hc
      simp only [natToCharsAux, List.mem_append, List.mem_singleton] at hc
      rcases hc with hc | hc
      · exact ih _ c hc
      · subst hc
        exact digit_isDigit _ (Nat.mod_lt _ (by omega))

theorem digitsVal_concat (xs : List Char) (c : Char) :
    digitsVal (xs ++ [c]) = digitsVal xs * 10 + (c.toNat - 48) := by
  simp [digitsVal, List.foldl_concat]

theorem digitsVal_natToCharsAux (fuel n : Nat) (h : n ≤ fuel) :
    digitsVal (natToCharsAux fuel n) = n := by
  induction fuel generalizing n with
  | zero =>
    interval_cases n
    simp [natToCharsAux, digitsVal]
  | succ f ih =>
    cases n with
    | zero => simp [natToCharsAux, digitsVal]
    | succ m =>
      have hdiv : (m + 1) / 10 ≤ f := by
        have := Nat.div_lt_self (Nat.succ_pos m) (by norm_num : 1 < 10)
        omega
      rw [natToCharsAux, digitsVal_concat, ih _ hdiv,
        digit_toNat _ (Nat.mod_lt _ (by omega))]
      omega

theorem natToChars_isDigit (n : Nat) :
    ∀ c ∈ natToChars n, c.isDigit = true := by
  cases n with
  | zero => decide
  | succ m =>
    simp only [natToChars, if_neg (Nat.succ_ne_zero m)]
    exact natToCharsAux_isDigit _ _

theorem parseNat_natToChars (n : Nat) : parseNat (natToChars n) = some n := by
  cases n with
  | zero => decide
  | succ m =>
    have hne : natToChars (m + 1) ≠ [] := by
      simp [natToChars, natToCharsAux]
    rw [parseNat, if_pos]
    · have heq : natToChars (m + 1) = natToCharsAux (m + 2) (m + 1) := by
        simp [natToChars]
      rw [heq, digitsVal_natToCharsAux _ _ (by omega)]
    · refine ⟨hne, ?_⟩
      simpa [List.all_eq_true] using natToChars_isDigit (m + 1)

theorem isDigit_ne (c : Char) (h : c.isDigit = true) :
    c ≠ ' ' ∧ c ≠ '\r' ∧ c ≠ ':' := by
  refine ⟨?_, ?_, ?_⟩ <;> rintro rfl <;> exact absurd h (by decide)

/-! ### Line and header parse round trip -/

theorem splitLine_append (l rest : List Char) (h : '\r' ∉ l) :
    splitLine (l ++ crlf ++ rest) = some (l, rest) := by
  induction l with
  | nil => simp [splitLine, crlf]
  | cons c l ih =>
    simp only [List.mem_cons, not_or] at h
    obtain ⟨hc, hl⟩ := h
    have hc' : ¬ c = '\r' := fun hh => hc hh.symm
    have hrec := ih hl
    simp only [List.append_assoc] at hrec ⊢
    simp [splitLine, hc', hrec]

theorem stripLead_append (p l : List Char) : stripLead p (p ++ l) = some l := by
  induction p with
  | nil => simp [stripLead]
  | cons c p ih => simp [stripLead, ih]

theorem parseStatusLine_roundTrip (n : Nat) (reason : List Char) :
    parseStatusLine (httpVersionChars ++ (natToChars n ++ ' ' :: reason))
      = some (n, reason) := by
  have hdig : ∀ c ∈ natToChars n, (!(c == ' ')) = true := by
    intro c hc
    have := (isDigit_ne c (natToChars_isDigit n c hc)).1
    simp [this]
  rw [parseStatusLine, stripLead_append]
  simp [List.dropWhile_append_of_pos hdig, List.takeWhile_append_of_pos hdig,
    parseNat_natToChars]

theorem dropWhile_blank_eq_self (v : List Char) (hv1 : v.head? ≠ some ' ')
    (hv2 : v.head? ≠ some '\t') :
    v.dropWhile (fun c => c == ' ' || c == '\t') = v := by
  cases v with
  | nil => rfl
  | cons c v =>
    have h1 : c ≠ ' ' := by
      intro h
      exact hv1 (by simp [h])
    have h2 : c ≠ '\t' := by
      intro h
      exact hv2 (by simp [h])
    simp [List.dropWhile_cons, h1, h2]

theorem parseHeaderLine_roundTrip (k v : List Char) (hk : ':' ∉ k)
    (hv1 : v.head? ≠ some ' ') (hv2 : v.head? ≠ some '\t') :
    parseHeaderLine (k ++ ':' :: ' ' :: v) = some (k, v) := by
  have hkp : ∀ c ∈ k, (!(c == ':')) = true := by
    intro c hc
    have : c ≠ ':' := fun h => hk (h ▸ hc)
    simp [this]
  rw [parseHeaderLine, List.dropWhile_append_of_pos hkp,
    List.takeWhile_append_of_pos hkp]
  simp [dropWhile_blank_eq_self v hv1 hv2]

theorem parseHeadersAux_roundTrip (hs : List (List Char × List Char))
    (body : List Char) (fuel : Nat) (hfuel : hs.length < fuel)
    (hwf : ∀ kv ∈ hs, ':' ∉ kv.1 ∧ '\r' ∉ kv.1 ∧ '\r' ∉ kv.2 ∧
      kv.2.head? ≠ some ' ' ∧ kv.2.head? ≠ some '\t') :
    parseHeadersAux fuel (dumpHeaders hs ++ crlf ++ body) = some (hs, body) := by
  induction hs generalizing fuel with
  | nil =>
    obtain ⟨f, rfl⟩ : ∃ f, fuel = f + 1 := ⟨fuel - 1, by omega⟩
    simp [parseHeadersAux, dumpHeaders, splitLine, crlf]
  | cons kv hs ih =>
    obtain ⟨f, rfl⟩ : ∃ f, fuel = f + 1 := ⟨fuel - 1, by omega⟩
    obtain ⟨k, v⟩ := kv
    have hwf0 := hwf (k, v) (List.mem_cons_self _ _)
    have hline : '\r' ∉ (k ++ ':' :: ' ' :: v) := by
      simp only [List.mem_append, List.mem_cons, not_or]
      exact ⟨hwf0.2.1, by decide, by decide, hwf0.2.2.1⟩
    have hshape : dumpHeaders ((k, v) :: hs) ++ crlf ++ body
        = (k ++ ':' :: ' ' :: v) ++ crlf ++ (dumpHeaders hs ++ crlf ++ body) := by
      simp [dumpHeaders, List.append_assoc]
    have hne : ¬ (k ++ ':' :: ' ' :: v) = [] := by
      simp
    have hrec := ih f (by simp only [List.length_cons] at hfuel; omega)
      (fun kv hkv => hwf kv (List.mem_cons_of_mem _ hkv))
    simp only [List.append_assoc] at hrec
    rw [hshape, parseHeadersAux, splitLine_append _ _ hline]
    simp [hne, parseHeaderLine_roundTrip k v hwf0.1 hwf0.2.2.2.1 hwf0.2.2.2.2,
      hrec]

theorem length_le_dumpHeaders (hs : List (List Char × List Char)) :
    hs.length ≤ (dumpHeaders hs).length := by
  induction hs with
  | nil => simp [dumpHeaders]
  | cons kv hs ih =>
    simp only [dumpHeaders, List.length_cons, List.length_append, crlf]
    omega

/-- Deserialisation inverts serialisation on well-formed responses. -/
theorem parseResponse_dumpResponse (r : Response) (hwf : WfResponse r) :
    parseResponse (dumpResponse r) = some r := by
  obtain ⟨hreason, hhs⟩ := hwf
  obtain ⟨code, reason, hs, body⟩ := r
  have hline : '\r' ∉ (httpVersionChars ++ (natToChars code ++ ' ' :: reason)) := by
    simp only [List.mem_append, List.mem_cons, not_or]
    refine ⟨by decide, ?_, by decide, hreason⟩
    intro hc
    exact absurd (natToChars_isDigit code '\r' hc) (by decide)
  have hshape : dumpResponse ⟨code, reason, hs, body⟩
      = (httpVersionChars ++ (natToChars code ++ ' ' :: reason)) ++ crlf ++
          (dumpHeaders hs ++ crlf ++ body) := by
    simp [dumpResponse, List.append_assoc]
  have hfuel : hs.length < (dumpHeaders hs ++ crlf ++ body).length + 1 := by
    have := length_le_dumpHeaders hs
    simp only [List.length_append]
    omega
  rw [parseResponse, hshape, splitLine_append _ _ hline]
  simp only [parseStatusLine_roundTrip,
    parseHeadersAux_roundTrip hs body _ hfuel hhs]

/-! ### Tee behaviour -/

theorem teeFires_nil_of_no_eof (events : List ReadEvent)
    (h : ∀ e ∈ events, e.signal ≠ some Terminal.eof) :
    ∀ buf, teeFires buf events = [] := by
  induction events with
  | nil => intro buf; rfl
  | cons e es ih =>
    intro buf
    have he := h e (List.mem_cons_self _ _)
    simp [teeFires, he, ih (fun x hx => h x (List.mem_cons_of_mem _ hx))]

theorem teeFires_drainsTo (data : List Char) (events : List ReadEvent) :
    ∀ buf, drainsTo buf data events = true →
      teeFires buf events = List.replicate (eofCount events) data := by
  induction events with
  | nil => intro buf _; rfl
  | cons e es ih =>
    intro buf h
    rw [drainsTo, Bool.and_eq_true] at h
    obtain ⟨h1, h2⟩ := h
    by_cases hs : e.signal = some Terminal.eof
    · have hdata : buf ++ e.bytes = data := by
        simpa [hs] using h1
      have hcnt : 1 + eofCount es = eofCount es + 1 := Nat.add_comm _ _
      have hrec := ih _ h2
      rw [hdata] at hrec
      simp [teeFires, eofCount, hs, hrec, hdata, hcnt, List.replicate_succ]
    · simp [teeFires, eofCount, hs, ih _ h2]

instance : DecidableEq (Except Unit (Option Response)) :=
  fun a b =>
    match a, b with
    | Except.ok x, Except.ok y =>
      if h : x = y then isTrue (congrArg Except.ok h)
      else isFalse (fun hh => h (Except.ok.inj hh))
    | Except.error x, Except.error y =>
      isTrue (congrArg Except.error (Subsingleton.elim x y))
    | Except.ok _, Except.error _ => isFalse (fun hh => Except.noConfusion hh)
    | Except.error _, Except.ok _ => isFalse (fun hh => Except.noConfusion hh)

/-! ### Concrete fixtures used by witnesses and counterexamples -/

/-- A stored 404 entry with a Date header value d and a two-byte body. -/
def r404 : Response :=
  ⟨404, "Not Found".toList, [(dateChars, ['d'])], ['x', 'y']⟩

/-- A parse-time oracle that parses the value d to instant zero. -/
def pt0 : List Char → Option Int :=
  fun d => if d = ['d'] then some 0 else none

/-- A store holding the serialised 404 entry under the key /k. -/
def s404 : Store := [("/k", dumpResponse r404)]

/-- A stored 404 entry whose Date header value does not parse. -/
def sBadDate : Store :=
  [("/k", dumpResponse ⟨404, "Not Found".toList, [(dateChars, ['b'])], []⟩)]

/-- A stored 200 entry carrying no Date header at all. -/
def rNoDate : Response := ⟨200, "OK".toList, [], ['z']⟩

/-- A store holding the serialised entry without a Date header. -/
def sNoDate : Store := [("/k", dumpResponse rNoDate)]

/-! ### Claims -/

/-- Claim C8: effectiveKey joins the prefix and the slash-trimmed path
with a slash separator; in particular the empty prefix yields the trimmed
path, the empty path yields the prefix, and a two-segment path is joined
verbatim. -/
theorem c8_effectiveKey (p : String) :
    effectiveKey "" p = (trimChar '/' p.toList).asString ∧
      effectiveKey "pfx" "" = "pfx" ∧
      effectiveKey "pfx" "a/b" = "pfx/a/b" := by
  refine ⟨?_, by decide, by decide⟩
  simp [effectiveKey]

/-- Claim C3 is violated by the code: with a max-retries flag of five,
`main` does build the retrying transport in its baseTransport variable,
but the transport actually installed into the caching transport is the
plain default transport, so no fetch goes through the retrying
transport. -/
theorem c3_retry_transport_unused :
    (mainWiring 5).baseTransport
        = TransportKind.retrying 5 TransportKind.defaultTransport ∧
      (mainWiring 5).cachingTransportInner = TransportKind.defaultTransport ∧
      TransportKind.defaultTransport
        ≠ TransportKind.retrying 5 TransportKind.defaultTransport := by
  decide

/-- Claim C2 is violated by the code: a GET whose stored entry carries a
Date value that the time parser rejects makes `RoundTrip` call
`log.Fatalf`, aborting the whole process instead of degrading to a
MISS. -/
theorem c2_fatal_on_unparseable_date :
    roundTrip false 60 0 (fun _ => none) (some rNoDate) (some sBadDate)
        "GET" "/k"
      = RTOutcome.fatal := by
  decide

/-- Claim C5 as stated is false: a one-byte body drained by a read, a
read returning end-of-data, and one further read after end-of-data is a
legitimate drain trace, yet the commit callback fires twice, not exactly
once. -/
theorem c5_refire_counterexample :
    drainsTo [] ['a']
        [⟨['a'], none⟩, ⟨[], some Terminal.eof⟩, ⟨[], some Terminal.eof⟩]
        = true ∧
      teeFires []
        [⟨['a'], none⟩, ⟨[], some Terminal.eof⟩, ⟨[], some Terminal.eof⟩]
        = [['a'], ['a']] ∧
      (teeFires []
        [⟨['a'], none⟩, ⟨[], some Terminal.eof⟩, ⟨[], some Terminal.eof⟩]).length
        ≠ 1 := by
  decide

/-- Claim C5 (amended): over any drain trace of an N-byte body, the
commit callback fires once per read at which the underlying stream
signals end-of-data — hence exactly once when the caller stops at the
first end-of-data signal — and every firing carries exactly the N
accumulated bytes; it never fires on any other read. -/
theorem c5_commit_fires (data : List Char) (events : List ReadEvent)
    (h : drainsTo [] data events = true) :
    teeFires [] events = List.replicate (eofCount events) data :=
  teeFires_drainsTo data events [] h

/-- Witness for the amended claim C5 at a concrete one-byte drain that
stops at the first end-of-data signal: the callback fires exactly once
with the whole body. -/
theorem c5_commit_fires_witness :
    drainsTo [] ['a'] [⟨['a'], none⟩, ⟨[], some Terminal.eof⟩] = true ∧
      teeFires [] [⟨['a'], none⟩, ⟨[], some Terminal.eof⟩]
        = List.replicate
            (eofCount [⟨['a'], none⟩, ⟨[], some Terminal.eof⟩]) ['a'] :=
  ⟨by decide, c5_commit_fires ['a'] _ (by decide)⟩

/-- Claim C6: when a wrapped body read terminates by any condition other
than true end-of-data — a non-EOF error after a strict prefix of the
body, or a close before the end — the commit callback never fires and
the store is unchanged. -/
theorem c6_no_commit_without_eof (events : List ReadEvent)
    (h : ∀ e ∈ events, e.signal ≠ some Terminal.eof)
    (c : Store) (cacheKey : String) (r : Response) :
    teeFires [] events = [] ∧
      commitFires c cacheKey r (teeFires [] events) = c := by
  have h1 : teeFires [] events = [] := teeFires_nil_of_no_eof events h []
  exact ⟨h1, by rw [h1]; rfl⟩

/-- Witness for claim C6: a trace delivering one byte of a longer body
and then failing with a non-EOF error commits nothing. -/
theorem c6_no_commit_without_eof_witness :
    (∀ e ∈ [ReadEvent.mk ['a'] none, ReadEvent.mk [] (some Terminal.err)],
        e.signal ≠ some Terminal.eof) ∧
      (teeFires [] [ReadEvent.mk ['a'] none,
          ReadEvent.mk [] (some Terminal.err)] = [] ∧
        commitFires s404 "/k" r404
          (teeFires [] [ReadEvent.mk ['a'] none,
            ReadEvent.mk [] (some Terminal.err)]) = s404) :=
  ⟨by decide,
    c6_no_commit_without_eof _ (by decide) s404 "/k" r404⟩

/-- Claim C4 as stated is false at a concrete input: when presigning
fails for a GET, the director aborts the whole process through
`log.Fatal` — the fatal outcome — rather than failing only the current
request. -/
theorem c4_presign_fatal_counterexample :
    s3Direct "mybucket" "pfx" (fun _ _ _ => none) "GET" "/ab/cd12"
        = DirectOutcome.fatal ∧
      DirectOutcome.fatal ≠ DirectOutcome.requestFailed := by
  exact ⟨by decide, by decide⟩

/-- Claim C4 (amended): a failure to generate the presigned URL aborts
the whole process through `log.Fatal`; in particular the request is
never forwarded as plain passthrough, but the failure is process-wide,
not confined to the one request. -/
theorem c4_presign_failure_fatal (bucket pfx : String)
    (presign : String → String → String → Option String)
    (method path : String)
    (h : presign bucket method (effectiveKey pfx path) = none) :
    s3Direct bucket pfx presign method path = DirectOutcome.fatal := by
  unfold s3Direct
  by_cases hm : method = "GET" ∨ method = "PUT"
  · simp only [if_pos hm, h]
  · simp only [if_neg hm]

/-- Witness for the amended claim C4: a presign oracle that always fails
makes the director abort for a concrete GET. -/
theorem c4_presign_failure_fatal_witness :
    s3Direct "b" "p" (fun _ _ _ => none) "GET" "/x" = DirectOutcome.fatal :=
  c4_presign_failure_fatal "b" "p" (fun _ _ _ => none) "GET" "/x" rfl

/-- Claim C7: a PUT reaches the backend exactly when writes are enabled;
a PUT with writes disabled yields the synthesized DROP response — the
literal 405 Method Not Allowed with empty body — with no backend call
and no error, whatever the cache, clock or backend would have done. -/
theorem c7_put_gating (allowWrites : Bool) (refreshDelay now : Int)
    (pt : List Char → Option Int) (backend : Option Response)
    (cache : Option Store) (path : String) :
    roundTrip allowWrites refreshDelay now pt backend cache "PUT" path
        = (if allowWrites then fetchStep "PASSTHROUGH" backend cache
           else RTOutcome.done
             ⟨"DROP", some newDroppedResponse, false, cache, false⟩) ∧
      (roundTrip allowWrites refreshDelay now pt backend cache
          "PUT" path).backendCalled = allowWrites ∧
      newDroppedResponse = ⟨405, "Method Not Allowed".toList, [], []⟩ := by
  have hga : ("PUT" == "GET") = false := by decide
  have hpp : ("PUT" == "PUT") = true := by decide
  refine ⟨?_, ?_, by decide⟩
  · cases cache <;> cases allowWrites <;> simp [roundTrip, hga, hpp]
  · cases cache <;> cases allowWrites <;> cases backend <;>
      simp [roundTrip, RTOutcome.backendCalled, fetchStep, hga, hpp]

/-- Claim C1 as stated is false at the refresh-delay boundary: a stored
non-success (404) entry whose age now minus storedTime equals the
60-minute refresh delay exactly does not satisfy the claim's strict HIT
condition, so the claim demands REFRESH; yet the code serves it as a
CACHE_HIT, keeps the entry, and never contacts the backend. -/
theorem c1_boundary_counterexample :
    r404.statusCode ≠ 200 ∧
      ¬ ((3600000000000 : Int) - 0 < 60 * minuteNs) ∧
      roundTrip false 60 3600000000000 pt0 none (some s404) "GET" "/k"
        = RTOutcome.done ⟨"CACHE_HIT", some r404, false, some s404, false⟩ := by
  refine ⟨by decide, by decide, by decide⟩

/-- Claim C1 (amended): for a GET with a cache configured whose stored
entry parses and carries a parseable timestamp t, the cached response is
returned verbatim as a HIT when the stored status is success or
now − t ≤ refreshDelay; a non-success entry strictly older than the
refresh delay is deleted from the store and re-fetched from the
backend as a REFRESH. -/
theorem c1_freshness (allowWrites : Bool) (refreshDelay now t : Int)
    (pt : List Char → Option Int) (backend : Option Response)
    (s : Store) (path : String) (r : Response) (d : List Char)
    (hget : cachedResponse s path = Except.ok (some r))
    (hdate : (headerValues r dateChars).head? = some d)
    (hpt : pt d = some t) :
    (r.statusCode = 200 ∨ now - t ≤ refreshDelay * minuteNs →
      roundTrip allowWrites refreshDelay now pt backend (some s) "GET" path
        = RTOutcome.done ⟨"CACHE_HIT", some r, false, some s, false⟩) ∧
    (r.statusCode ≠ 200 ∧ refreshDelay * minuteNs < now - t →
      roundTrip allowWrites refreshDelay now pt backend (some s) "GET" path
        = fetchStep "CACHE_REFRESH" backend (some (storeDelete s path))) := by
  constructor
  · intro hcond
    have hcond' : r.statusCode = 200 ∨ ¬ t + refreshDelay * minuteNs < now := by
      rcases hcond with h | h
      · exact Or.inl h
      · exact Or.inr (by omega)
    simp only [roundTrip, beq_self_eq_true, hget, hdate, hpt]
    rw [if_pos hcond']
  · intro hcond
    have hcond' : ¬ (r.statusCode = 200 ∨
        ¬ t + refreshDelay * minuteNs < now) := by
      push_neg
      exact ⟨hcond.1, by omega⟩
    simp only [roundTrip, beq_self_eq_true, hget, hdate, hpt]
    rw [if_neg hcond']

/-- Witness for the amended claim C1 at a fresh concrete 404 entry: the
hypotheses hold at the fixture store and the stated alternatives
follow. -/
theorem c1_freshness_witness :
    ((r404.statusCode = 200 ∨ (0 : Int) - 0 ≤ 60 * minuteNs →
        roundTrip false 60 0 pt0 none (some s404) "GET" "/k"
          = RTOutcome.done ⟨"CACHE_HIT", some r404, false, some s404, false⟩) ∧
      (r404.statusCode ≠ 200 ∧ 60 * minuteNs < (0 : Int) - 0 →
        roundTrip false 60 0 pt0 none (some s404) "GET" "/k"
          = fetchStep "CACHE_REFRESH" none (some (storeDelete s404 "/k")))) :=
  c1_freshness false 60 0 0 pt0 none s404 "/k" r404 ['d']
    (by decide) (by decide) (by decide)

/-- Claim C9: committing a well-formed response serialises it into the
store, and a later GET on the same key that is served as a HIT — the
stored status is success, or the entry is within the refresh delay —
returns exactly the committed response: deserialisation of the stored
bytes inverts the serialisation. -/
theorem c9_hit_returns_committed (r : Response) (s : Store) (key : String)
    (allowWrites : Bool) (refreshDelay now t : Int)
    (pt : List Char → Option Int) (backend : Option Response) (d : List Char)
    (hwf : WfResponse r)
    (hdate : (headerValues r dateChars).head? = some d)
    (hpt : pt d = some t)
    (hhit : r.statusCode = 200 ∨ now - t ≤ refreshDelay * minuteNs) :
    roundTrip allowWrites refreshDelay now pt backend
        (some (storeSet s key (dumpResponse r))) "GET" key
      = RTOutcome.done ⟨"CACHE_HIT", some r, false,
          some (storeSet s key (dumpResponse r)), false⟩ := by
  have hget : cachedResponse (storeSet s key (dumpResponse r)) key
      = Except.ok (some r) := by
    simp [cachedResponse, storeGet, storeSet,
      parseResponse_dumpResponse r hwf]
  have hcond : r.statusCode = 200 ∨ ¬ t + refreshDelay * minuteNs < now := by
    rcases hhit with h | h
    · exact Or.inl h
    · exact Or.inr (by omega)
  simp only [roundTrip, beq_self_eq_true, hget, hdate, hpt]
  rw [if_pos hcond]

/-- Witness for claim C9 at a committed non-success response: a cached
404 still within the refresh delay is returned verbatim by a later GET
on its key. -/
theorem c9_hit_returns_committed_witness :
    roundTrip false 60 0 pt0 none
        (some (storeSet [] "/k" (dumpResponse r404))) "GET" "/k"
      = RTOutcome.done ⟨"CACHE_HIT", some r404, false,
          some (storeSet [] "/k" (dumpResponse r404)), false⟩ :=
  c9_hit_returns_committed r404 [] "/k" false 60 0 0 pt0 none ['d']
    (by decide) (by decide) (by decide) (Or.inr (by decide))

/-- Claim C10: for a GET whose stored entry parses into a response, the
freshness check indexes the first element of the Date header list; the
lookup panics out of range exactly when the entry carries no Date
header, and cannot panic when one is present. -/
theorem c10_date_index_bounds (allowWrites : Bool) (refreshDelay now : Int)
    (pt : List Char → Option Int) (backend : Option Response)
    (s : Store) (path : String) (r : Response)
    (hget : cachedResponse s path = Except.ok (some r)) :
    (roundTrip allowWrites refreshDelay now pt backend (some s) "GET" path
        = RTOutcome.panic ↔ headerValues r dateChars = []) := by
  constructor
  · intro h
    by_contra hne
    obtain ⟨d, hd⟩ : ∃ d, (headerValues r dateChars).head? = some d := by
      cases hv : headerValues r dateChars with
      | nil => exact absurd hv hne
      | cons a l => exact ⟨a, by simp [hv]⟩
    cases hpt : pt d with
    | none =>
      simp only [roundTrip, beq_self_eq_true, hget, hd, hpt] at h
      exact RTOutcome.noConfusion h
    | some t =>
      simp only [roundTrip, beq_self_eq_true, hget, hd, hpt] at h
      by_cases hc : r.statusCode = 200 ∨ ¬ t + refreshDelay * minuteNs < now
      · rw [if_pos hc] at h
        exact RTOutcome.noConfusion h
      · rw [if_neg hc] at h
        cases backend <;> simp [fetchStep] at h
  · intro h
    have hd : (headerValues r dateChars).head? = none := by simp [h]
    simp only [roundTrip, beq_self_eq_true, hget, hd]

/-- Witness for claim C10 at a stored 200 entry without a Date header:
the round trip panics, and the equivalence instantiates. -/
theorem c10_date_index_bounds_witness :
    (roundTrip false 60 0 pt0 none (some sNoDate) "GET" "/k"
        = RTOutcome.panic ↔ headerValues rNoDate dateChars = []) :=
  c10_date_index_bounds false 60 0 pt0 none sNoDate "/k" rNoDate (by decide)
